import Mathlib

/-!
Verification of the ticket lifecycle manager against its specification.

Shallow embedding of the ticket bot's core logic (ticket handler, transcript
generator, recovery pass) as executable Lean definitions, together with
theorems settling the specification claims C1-C10.

Sources embedded:
* `src/utils/transcript_generator.ts` — message filtering, HTML escaping and
  the restricted-markdown transform;
* the ticket handler (`reloadTickets`, `createNewTicket`, the static and
  instance `closeTicket`) — modelled as state transformers / event traces.
-/

namespace TicketBot

/-! ## String helpers (JS `String.prototype.includes` analogue) -/

/-- Does `l` contain `pat` as a contiguous sublist? Mirrors JS `includes`. -/
def listHasInfix (pat : List Char) : List Char → Bool
  | [] => pat.isEmpty
  | c :: cs => pat.isPrefixOf (c :: cs) || listHasInfix pat cs

/-- JS `s.includes(pat)`. -/
def strIncludes (s pat : String) : Bool :=
  listHasInfix pat.data s.data

/-! ## Transcript message filtering (`generateTicketTranscript`, lines 64-72)

The source filters the ascending-timestamp message list with
```js
ticket.messages.filter((msg, index, arr) => {
  if (index === 0 && msg.content?.includes('<EMBED:')) return false;
  if (index === arr.length - 1 && msg.content?.includes('<EMBED:')) return false;
  return true;
});
```
-/

/-- A persisted ticket message (the fields the transcript renderer reads). -/
structure TicketMsg where
  authorId : String
  displayName : String
  content : Option String
  sentAt : Nat
  deriving Repr, DecidableEq

/-- `msg.content?.includes('<EMBED:')` — `false` when content is null. -/
def msgIncludesEmbed (m : TicketMsg) : Bool :=
  match m.content with
  | none => false
  | some s => strIncludes s "<EMBED:"

/-- The filter callback: keep unless (first ∧ marker) or (last ∧ marker),
where indices refer to the original array of length `len`. -/
def keepMsg (len i : Nat) (m : TicketMsg) : Bool :=
  !((i == 0) && msgIncludesEmbed m) && !((i == len - 1) && msgIncludesEmbed m)

/-- `Array.prototype.filter` with the index/array-length-aware callback. -/
def filterIdx (len : Nat) : Nat → List TicketMsg → List TicketMsg
  | _, [] => []
  | i, m :: rest =>
    if keepMsg len i m then m :: filterIdx len (i + 1) rest
    else filterIdx len (i + 1) rest

/-- The message list the transcript renders, as computed by
`generateTicketTranscript`. -/
def generateTranscriptMessages (msgs : List TicketMsg) : List TicketMsg :=
  filterIdx msgs.length 0 msgs

/-- Spec-side predicate ("rich-content-only synthetic marker"): the content
consists solely of the in-band embed marker, with no plain text around it. -/
def specRichContentOnly (m : TicketMsg) : Bool :=
  match m.content with
  | none => false
  | some s => "<EMBED:".data.isPrefixOf s.data && s.data.getLast? == some '>'

/-- What the filter actually computes, phrased structurally: drop the head iff
its content contains the marker substring, drop the last iff its content
contains the marker substring, keep everything in between in order. -/
def specDropEnds (msgs : List TicketMsg) : List TicketMsg :=
  match msgs with
  | [] => []
  | [a] => if msgIncludesEmbed a then [] else [a]
  | a :: rest =>
    (if msgIncludesEmbed a then [] else [a]) ++ rest.dropLast ++
      (match rest.getLast? with
       | some b => if msgIncludesEmbed b then [] else [b]
       | none => [])

/-! ## HTML escaping and the restricted-markdown transform
(`transcript_generator.ts`, `escapeHtml` lines 186-195 and
`formatDiscordMarkdown` lines 200-225) -/

/-- `escapeHtml`'s character map: `/[&<>"']/g` with the replacement table. -/
def escapeChar (c : Char) : List Char :=
  if c = '&' then "&amp;".data
  else if c = '<' then "&lt;".data
  else if c = '>' then "&gt;".data
  else if c = '"' then "&quot;".data
  else if c = '\'' then "&#039;".data
  else [c]

/-- `escapeHtml(text)`. -/
def escapeHtmlL (l : List Char) : List Char :=
  l.flatMap escapeChar

/-- Finds the closing delimiter for a lazy group `(.*?)`: returns the shortest
content before the next occurrence of `delim`, and the remainder after it.
`allowNl` is the JS `s` flag (whether `.` may match a newline). -/
def findLazyClose (delim : List Char) (allowNl : Bool) : List Char → Option (List Char × List Char)
  | [] => none
  | c :: cs =>
    if delim.isPrefixOf (c :: cs) then some ([], (c :: cs).drop delim.length)
    else if !allowNl && c = '\n' then none
    else
      match findLazyClose delim allowNl cs with
      | some (content, rest) => some (c :: content, rest)
      | none => none

/-- One global lazy pair-replacement pass, the JS
`str.replace(/D(.*?)D/g, openT + '$1' + closeT)` for a delimiter
`D = d0 :: drest`: leftmost match, shortest content, continue after it.
Structured with a fuel argument so the kernel can evaluate it; each step
strictly shortens the list, so fuel = input length never runs out
(`replacePairFuel_eq_of_le` below). -/
def replacePairFuel (d0 : Char) (drest openT closeT : List Char) (allowNl : Bool) :
    Nat → List Char → List Char
  | 0, l => l
  | _ + 1, [] => []
  | fuel + 1, c :: cs =>
    if (d0 :: drest).isPrefixOf (c :: cs) then
      match findLazyClose (d0 :: drest) allowNl ((c :: cs).drop (d0 :: drest).length) with
      | some (content, rest) =>
        openT ++ content ++ closeT ++ replacePairFuel d0 drest openT closeT allowNl fuel rest
      | none => c :: replacePairFuel d0 drest openT closeT allowNl fuel cs
    else
      c :: replacePairFuel d0 drest openT closeT allowNl fuel cs

/-- The replacement pass entry point: fuel is the input length. -/
def replacePair (d0 : Char) (drest openT closeT : List Char) (allowNl : Bool)
    (l : List Char) : List Char :=
  replacePairFuel d0 drest openT closeT allowNl l.length l

/-- Matches a mention at the start of `l`: the opening sequence, one or more
digits, then `&gt;`. Returns the remainder after the match. -/
def matchMention (o0 : Char) (orest : List Char) (l : List Char) : Option (List Char) :=
  if (o0 :: orest).isPrefixOf l then
    let after := l.drop (o0 :: orest).length
    let digits := after.takeWhile (·.isDigit)
    if digits.isEmpty then none
    else
      let after2 := after.drop digits.length
      if "&gt;".data.isPrefixOf after2 then some (after2.drop "&gt;".data.length)
      else none
  else none

/-- One global mention-replacement pass, the JS
`str.replace(/OPEN(\d+)&gt;/g, repl)`, with the same fuel scheme. -/
def replaceMentionFuel (o0 : Char) (orest repl : List Char) : Nat → List Char → List Char
  | 0, l => l
  | _ + 1, [] => []
  | fuel + 1, c :: cs =>
    match matchMention o0 orest (c :: cs) with
    | some rest => repl ++ replaceMentionFuel o0 orest repl fuel rest
    | none => c :: replaceMentionFuel o0 orest repl fuel cs

/-- The mention pass entry point. -/
def replaceMentionCore (o0 : Char) (orest repl : List Char) (l : List Char) : List Char :=
  replaceMentionFuel o0 orest repl l.length l

/-- Splits on newline characters (the lines seen by a `/m` regex). -/
def splitNl : List Char → List (List Char)
  | [] => [[]]
  | c :: cs =>
    match splitNl cs with
    | [] => [[c]]
    | l :: ls => if c = '\n' then [] :: l :: ls else (c :: l) :: ls

/-- Per-line quote substitution: `/^&gt; (.+)$/gm` with replacement
`<div class="quote">$1</div>`. -/
def quoteLine (line : List Char) : List Char :=
  if "&gt; ".data.isPrefixOf line && !(line.drop 5).isEmpty then
    "<div class=\"quote\">".data ++ line.drop 5 ++ "</div>".data
  else line

/-- The quote pass over the whole text. -/
def replaceQuote (l : List Char) : List Char :=
  List.intercalate ['\n'] ((splitNl l).map quoteLine)

/-- `/\n/g` → `<br>`. -/
def replaceLineBreaks (l : List Char) : List Char :=
  l.flatMap (fun c => if c = '\n' then "<br>".data else [c])

/-- `formatDiscordMarkdown(text)`: escape, then the substitution passes in
source order (bold, italic, underline, strikethrough, code block, inline
code, quote, user mention, channel mention, line breaks). -/
def formatDiscordMarkdown (s : String) : String :=
  let f0 := escapeHtmlL s.data
  let f1 := replacePair '*' ['*'] "<strong>".data "</strong>".data false f0
  let f2 := replacePair '*' [] "<em>".data "</em>".data false f1
  let f3 := replacePair '_' ['_'] "<u>".data "</u>".data false f2
  let f4 := replacePair '~' ['~'] "<s>".data "</s>".data false f3
  let f5 := replacePair '`' ['`', '`'] "<pre><code>".data "</code></pre>".data true f4
  let f6 := replacePair '`' [] "<code>".data "</code>".data false f5
  let f7 := replaceQuote f6
  let f8 := replaceMentionCore '&' "lt;@".data "<span class=\"mention\">@User</span>".data f7
  let f9 := replaceMentionCore '&' "lt;#".data "<span class=\"mention\">#channel</span>".data f8
  let f10 := replaceLineBreaks f9
  String.mk f10

/-! ## Intro-message field rendering (`createNewTicket`, lines 389-403)

```js
const fields = formattedResponses.map(({ label, response }) => {
  let value = response, name = label;
  if (tbxIdRegex.test(response) && purchase.success) {
    name = 'Purchase Info';
    value = `* Transaction ID: ${response}\n* Status: ${purchase.data.status}\n* Packages: ${purchase.data.packages.map(e => e.name).join(', ')}`;
  }
  return { name, value, inline: false };
});
```
-/

/-- A lowercase-alphanumeric token character. -/
def isTbxChar (c : Char) : Bool := c.isDigit || c.isLower

/-- Modelled from the spec: `tbxIdRegex` lives in `utils/utils`, which is not
among the provided sources. Per the spec, verification tokens have the shape
of the placeholder `tbx-000a0000a00000-aaa0aa`: the literal prefix `tbx-`,
a nonempty lowercase-alphanumeric block, a dash, and a trailing nonempty
lowercase-alphanumeric block. -/
def tbxIdRegexTest (s : String) : Bool :=
  match s.data with
  | 't' :: 'b' :: 'x' :: '-' :: rest =>
    let block1 := rest.takeWhile isTbxChar
    match rest.drop block1.length with
    | '-' :: block2 => !block1.isEmpty && !block2.isEmpty && block2.all isTbxChar
    | _ => false
  | _ => false

/-- A package item of a verified purchase. -/
structure TebexPackage where
  name : String
  deriving Repr, DecidableEq

/-- The payload of a successful verification lookup. -/
structure TebexPayment where
  status : String
  packages : List TebexPackage
  deriving Repr, DecidableEq

/-- The verification collaborator's result (`Tebex.verifyPurchase`). -/
inductive PurchaseOutcome where
  | success (data : TebexPayment)
  | failure
  deriving Repr, DecidableEq

/-- An answered form field retained by `formattedResponses`. -/
structure FormResponse where
  label : String
  response : String
  fieldId : String
  deriving Repr, DecidableEq

/-- An embed field of the introductory message. -/
structure EmbedField where
  name : String
  value : String
  inline : Bool
  deriving Repr, DecidableEq

/-- `packages.map(e => e.name).join(', ')`. -/
def joinSep (sep : String) : List String → String
  | [] => ""
  | [x] => x
  | x :: y :: rest => x ++ sep ++ joinSep sep (y :: rest)

/-- The purchase-info summary value built in place of a raw token answer. -/
def purchaseInfoValue (response : String) (data : TebexPayment) : String :=
  "* Transaction ID: " ++ response ++ "\n" ++
  "* Status: " ++ data.status ++ "\n" ++
  "* Packages: " ++ joinSep ", " (data.packages.map TebexPackage.name)

/-- One rendered intro-message field. -/
def renderTicketField (purchase : PurchaseOutcome) (r : FormResponse) : EmbedField :=
  match purchase, tbxIdRegexTest r.response with
  | .success data, true =>
    { name := "Purchase Info", value := purchaseInfoValue r.response data, inline := false }
  | _, _ => { name := r.label, value := r.response, inline := false }

/-- The full rendered field list of the introductory message. -/
def renderIntroFields (purchase : PurchaseOutcome) (responses : List FormResponse) :
    List EmbedField :=
  responses.map (renderTicketField purchase)

/-! ## System state: registry, persisted tickets, channels -/

/-- A persisted `Tickets` row (the columns the lifecycle logic touches). -/
structure TicketRow where
  id : Nat
  channelId : String
  userId : String
  closedAt : Option Nat
  staffThreadId : Option String
  deriving Repr, DecidableEq

/-- A persisted `TicketMessages` row (the columns the lifecycle logic writes). -/
structure MsgRow where
  ticket : Nat
  authorId : String
  content : String
  deriving Repr, DecidableEq

/-- Process + store state: the in-memory `ActiveTickets` map keyed by channel
id, the persisted ticket rows, the persisted message log, and the set of
existing conversation channels. -/
structure SysState where
  registry : List (String × Nat)
  tickets : List TicketRow
  messages : List MsgRow
  channels : List String
  deriving Repr, DecidableEq

/-- `ActiveTickets.get(channelId)`. -/
def mapGet (k : String) (m : List (String × Nat)) : Option Nat :=
  List.lookup k m

/-- `ActiveTickets.delete(channelId)`. -/
def mapErase (k : String) (m : List (String × Nat)) : List (String × Nat) :=
  m.filter (fun p => !(p.1 == k))

/-- `ActiveTickets.set(channelId, ticket)`. -/
def mapSet (k : String) (v : Nat) (m : List (String × Nat)) : List (String × Nat) :=
  (k, v) :: mapErase k m

/-- `prisma.tickets.update({ data: { closedAt } })`. -/
def setClosedAt (tid now : Nat) (ts : List TicketRow) : List TicketRow :=
  ts.map (fun t => if t.id == tid then { t with closedAt := some now } else t)

/-! ## Closure workflow (`Ticket.closeTicket` static lines 487-580 and
instance lines 691-877) -/

/-- JSON string escaping for the embed payload. -/
def jsonEscapeChar (c : Char) : List Char :=
  if c = '"' then ['\\', '"']
  else if c = '\\' then ['\\', '\\']
  else if c = '\n' then ['\\', 'n']
  else [c]

/-- Serialize a string into a JSON literal body. -/
def jsonEscape (s : String) : String := String.mk (s.data.flatMap jsonEscapeChar)

/-- The closure embed serialized by the instance close
(`EmbedBuilder().setTitle('Ticket closed').setDescription(...)`). -/
def closureEmbedJson (reason : Option String) : String :=
  "\x7b\"title\":\"Ticket closed\",\"description\":\"" ++
    jsonEscape (match reason with
                | some r => "Closure reason:\n> " ++ r
                | none => "No reason provided.") ++
    "\"\x7d"

/-- The synthetic closure message content appended by the instance close. -/
def closureMsgContent (reason : Option String) : String :=
  "<EMBED:" ++ closureEmbedJson reason ++ ">"

/-- Environment/platform facts the closure sequence branches on. -/
structure CloseCtx where
  ticketInfoFound : Bool
  hasTranscriptChannelId : Bool
  transcriptChannelResolves : Bool
  hasStaffThread : Bool
  staffThreadResolves : Bool
  staffMsgCountGtOne : Bool
  closerIsOwner : Bool
  deriving Repr, DecidableEq

/-- Which external operations of the closure sequence throw. -/
structure CloseFaults where
  persistClosedAtFails : Bool
  appendClosureMsgFails : Bool
  transcriptGenFails : Bool
  archiveSendFails : Bool
  staffSendFails : Bool
  dmSendFails : Bool
  deriving Repr, DecidableEq

/-- No-fault configuration. -/
def noCloseFaults : CloseFaults :=
  ⟨false, false, false, false, false, false⟩

/-- Observable steps of the closure sequence, in execution order. -/
inductive CloseEvent where
  | persistClosedAt
  | appendClosureMsg
  | transcriptGenerated
  | archivePostAttempt
  | staffPostAttempt
  | dmTranscriptAttempt
  | scheduleChannelDelete
  | unregister
  | notifyDmAttempt
  deriving Repr, DecidableEq

/-- The instance `closeTicket(user, reason)`: the durable transition
(persist `closedAt`, append the synthetic closure message), then transcript
generation and the fan-out, all inside one `try`; each fan-out destination has
its own inner `try/catch`, except that the staff-thread post lives inside the
archive-channel `try` after the archive send. Returns the updated state, the
success flag, and the trace of performed/attempted steps. -/
def instCloseTicket (ctx : CloseCtx) (f : CloseFaults) (st : SysState) (tid : Nat)
    (closerId : String) (reason : Option String) (now : Nat) :
    SysState × Bool × List CloseEvent :=
  if f.persistClosedAtFails then (st, false, [])
  else
    let st1 : SysState := { st with tickets := setClosedAt tid now st.tickets }
    if f.appendClosureMsgFails then (st1, false, [CloseEvent.persistClosedAt])
    else
      let st2 : SysState :=
        { st1 with messages := st1.messages ++ [⟨tid, closerId, closureMsgContent reason⟩] }
      let evs0 := [CloseEvent.persistClosedAt, CloseEvent.appendClosureMsg]
      let transcriptOk := ctx.ticketInfoFound && !f.transcriptGenFails
      let evs1 := if transcriptOk then evs0 ++ [CloseEvent.transcriptGenerated] else evs0
      let evs2 :=
        if ctx.hasTranscriptChannelId && ctx.ticketInfoFound && transcriptOk then
          if ctx.transcriptChannelResolves then
            let evsA := evs1 ++ [CloseEvent.archivePostAttempt]
            if f.archiveSendFails then evsA
            else
              if ctx.hasStaffThread then
                if ctx.staffThreadResolves && ctx.staffMsgCountGtOne then
                  evsA ++ [CloseEvent.staffPostAttempt]
                else evsA
              else evsA
          else evs1
        else evs1
      let evs3 :=
        if ctx.ticketInfoFound && transcriptOk then evs2 ++ [CloseEvent.dmTranscriptAttempt]
        else evs2
      (st2, true, evs3 ++ [CloseEvent.scheduleChannelDelete])

/-- Result of the static `closeTicket(channelId, interaction)` entry point. -/
inductive CloseReqResult where
  | channelNotTicket
  | cancelled
  | completed (success : Bool)
  deriving Repr, DecidableEq

/-- The static `Ticket.closeTicket`: registry lookup (reject when absent),
closure-reason modal with 60s wait (cancel leaves everything untouched), the
instance close, unregistration iff it succeeded, then the closer-isn't-owner
notification DM. -/
def staticCloseTicket (ctx : CloseCtx) (f : CloseFaults) (st : SysState)
    (channelId closerId : String) (modalSubmitted : Bool) (reason : Option String)
    (now : Nat) : SysState × CloseReqResult × List CloseEvent :=
  match mapGet channelId st.registry with
  | none => (st, CloseReqResult.channelNotTicket, [])
  | some tid =>
    if !modalSubmitted then (st, CloseReqResult.cancelled, [])
    else
      let r := instCloseTicket ctx f st tid closerId reason now
      let st1 := r.1
      let success := r.2.1
      let evs := r.2.2
      let st2 : SysState :=
        if success then { st1 with registry := mapErase channelId st1.registry } else st1
      let evs1 := if success then evs ++ [CloseEvent.unregister] else evs
      let evs2 :=
        if ctx.ticketInfoFound && !ctx.closerIsOwner then evs1 ++ [CloseEvent.notifyDmAttempt]
        else evs1
      (st2, CloseReqResult.completed success, evs2)

/-! ## Intake workflow (`createNewTicket`, lines 108-471) -/

/-- The category/platform facts the intake workflow branches on. -/
structure IntakeCtx where
  categoryFound : Bool
  requireTbxId : Bool
  fieldCount : Nat
  categoryChannelResolves : Bool
  deriving Repr, DecidableEq

/-- The outcome of awaiting the modal submission (60s, correlated). -/
inductive ModalWait where
  | timeout
  | submitted (responses : List FormResponse)
  deriving Repr, DecidableEq

/-- The intake workflow's terminal outcome. -/
inductive IntakeOutcome where
  | invalidCategory
  | cancelled
  | verificationFailed
  | categoryChannelMissing
  | opened
  deriving Repr, DecidableEq

/-- Materialize the ticket: create the channel, persist the row
(`closedAt = null`), register it in `ActiveTickets`. -/
def openTicketState (st : SysState) (newChannelId : String) (newTicketId : Nat)
    (userId : String) : SysState :=
  { st with
    channels := st.channels ++ [newChannelId]
    tickets := st.tickets ++ [⟨newTicketId, newChannelId, userId, none, none⟩]
    registry := mapSet newChannelId newTicketId st.registry }

/-- `createNewTicket`: category lookup, fast path (no verification and no
fields) or the modal form path with its 60-second wait; on submission,
verification when required, then provisioning and registration. -/
def createNewTicket (ctx : IntakeCtx) (st : SysState) (wait : ModalWait)
    (purchase : PurchaseOutcome) (newChannelId : String) (newTicketId : Nat)
    (userId : String) : SysState × IntakeOutcome :=
  if !ctx.categoryFound then (st, IntakeOutcome.invalidCategory)
  else if !ctx.requireTbxId && ctx.fieldCount == 0 then
    if !ctx.categoryChannelResolves then (st, IntakeOutcome.categoryChannelMissing)
    else (openTicketState st newChannelId newTicketId userId, IntakeOutcome.opened)
  else
    match wait with
    | ModalWait.timeout => (st, IntakeOutcome.cancelled)
    | ModalWait.submitted responses =>
      if ctx.requireTbxId &&
          !((responses.find? (fun r => r.fieldId == "tbxid")).isSome &&
            (match purchase with | PurchaseOutcome.success _ => true | _ => false)) then
        (st, IntakeOutcome.verificationFailed)
      else if !ctx.categoryChannelResolves then (st, IntakeOutcome.categoryChannelMissing)
      else (openTicketState st newChannelId newTicketId userId, IntakeOutcome.opened)

/-! ## Recovery pass (`reloadTickets`, lines 36-83) -/

/-- A persisted open ticket row as read by the recovery pass. -/
structure PersistedTicket where
  id : Nat
  channelId : String
  deriving Repr, DecidableEq

/-- The synthetic closure message content appended by recovery
(`EmbedBuilder().setTitle('Ticket closed')`, no description). -/
def recoveryClosureContent : String := "<EMBED:\x7b\"title\":\"Ticket closed\"\x7d>"

/-- The recovery pass's cumulative effect. -/
structure RecoveryResult where
  registry : List (String × Nat)
  closedIds : List Nat
  syntheticMessages : List MsgRow
  deriving Repr, DecidableEq

/-- The sequential for-loop of `reloadTickets`: per ticket, resolve the bound
channel; on success reconstruct and register, on failure set `closedAt` and
append one synthetic closure message attributed to the bot. -/
def reloadLoop (botId : String) (resolve : String → Bool) (acc : RecoveryResult) :
    List PersistedTicket → RecoveryResult
  | [] => acc
  | t :: rest =>
    if resolve t.channelId then
      reloadLoop botId resolve
        { acc with registry := mapSet t.channelId t.id acc.registry } rest
    else
      reloadLoop botId resolve
        { acc with
          closedIds := acc.closedIds ++ [t.id]
          syntheticMessages :=
            acc.syntheticMessages ++ [⟨t.id, botId, recoveryClosureContent⟩] } rest

/-- `Ticket.reloadTickets`, starting from the empty `ActiveTickets` map. -/
def reloadTickets (botId : String) (resolve : String → Bool)
    (ts : List PersistedTicket) : RecoveryResult :=
  reloadLoop botId resolve ⟨[], [], []⟩ ts

/-! ## Derived trace views of the closure sequence -/

/-- The instance close succeeds exactly when both durable writes succeed. -/
def instCloseSuccess (f : CloseFaults) : Bool :=
  !f.persistClosedAtFails && !f.appendClosureMsgFails

/-- The event trace of the instance close as a function of the branching
facts alone (the trace does not depend on the state). -/
def instCloseTrace (ctx : CloseCtx) (f : CloseFaults) : List CloseEvent :=
  if f.persistClosedAtFails then []
  else if f.appendClosureMsgFails then [CloseEvent.persistClosedAt]
  else
    let evs0 := [CloseEvent.persistClosedAt, CloseEvent.appendClosureMsg]
    let transcriptOk := ctx.ticketInfoFound && !f.transcriptGenFails
    let evs1 := if transcriptOk then evs0 ++ [CloseEvent.transcriptGenerated] else evs0
    let evs2 :=
      if ctx.hasTranscriptChannelId && ctx.ticketInfoFound && transcriptOk then
        if ctx.transcriptChannelResolves then
          let evsA := evs1 ++ [CloseEvent.archivePostAttempt]
          if f.archiveSendFails then evsA
          else
            if ctx.hasStaffThread then
              if ctx.staffThreadResolves && ctx.staffMsgCountGtOne then
                evsA ++ [CloseEvent.staffPostAttempt]
              else evsA
            else evsA
        else evs1
      else evs1
    let evs3 :=
      if ctx.ticketInfoFound && transcriptOk then evs2 ++ [CloseEvent.dmTranscriptAttempt]
      else evs2
    evs3 ++ [CloseEvent.scheduleChannelDelete]

/-! ### The transform is the identity on trigger-free text -/

/-- Characters that can trigger any escaping or substitution in
`formatDiscordMarkdown`: the five HTML-escaped characters, the markdown
delimiters, and the newline. -/
def mdTriggerChars : List Char := ['&', '<', '>', '"', '\'', '*', '_', '~', '`', '\n']

/-! ## Concrete example fixtures -/

/-- A fully-favorable close context: ticket row found, archive channel
configured and resolvable, staff thread present with extra messages, closer is
not the requester. -/
def ctxEx : CloseCtx := ⟨true, true, true, true, true, true, false⟩

/-- A close context where the closer *is* the requester. -/
def ctxOwnerEx : CloseCtx := ⟨true, true, true, false, false, false, true⟩

/-- A state with one open registered ticket #7 bound to channel "chan". -/
def stEx : SysState :=
  ⟨[("chan", 7)], [⟨7, "chan", "owner", none, some "thread"⟩], [], ["chan"]⟩

/-- Faults: only transcript generation throws. -/
def fGenFailEx : CloseFaults := ⟨false, false, true, false, false, false⟩

/-- Faults: the `closedAt` persistence write throws. -/
def fPersistFailEx : CloseFaults := ⟨true, false, false, false, false, false⟩

/-! ## Supporting lemmas -/

theorem listHasInfix_intro {pat l : List Char} (h : pat <:+: l) :
    listHasInfix pat l = true := by
  induction l with
  | nil =>
    rcases h with ⟨s, t, hst⟩
    have hnil : s ++ pat ++ t = [] := hst
    have : pat = [] := (List.append_eq_nil.mp (List.append_eq_nil.mp hnil).1).2
    simp [listHasInfix, this]
  | cons c cs ih =>
    rcases h with ⟨s, t, hst⟩
    cases s with
    | nil =>
      simp only [List.nil_append] at hst
      have hpre : pat <+: c :: cs := ⟨t, hst⟩
      simp [listHasInfix, List.isPrefixOf_iff_prefix.mpr hpre]
    | cons a as =>
      simp only [List.cons_append] at hst
      have : pat <:+: cs := ⟨as, t, by exact (List.cons.injEq _ _ _ _ ▸ hst).2⟩
      simp [listHasInfix, ih this]

theorem strIncludes_intro {s pat : String} (h : pat.data <:+: s.data) :
    strIncludes s pat = true :=
  listHasInfix_intro h

theorem keepMsg_middle (n i : Nat) (m : TicketMsg) (h1 : 1 ≤ i) (h2 : i ≤ n) :
    keepMsg (n + 2) i m = true := by
  have hi0 : (i == 0) = false := by simp; omega
  have hi1 : (i == n + 2 - 1) = false := by simp; omega
  simp only [keepMsg, hi0, hi1, Bool.false_and, Bool.not_false, Bool.and_self]

theorem filterIdx_splice (n : Nat) (ms bs : List TicketMsg) :
    ∀ i, 1 ≤ i → i + ms.length ≤ n + 1 →
      filterIdx (n + 2) i (ms ++ bs) = ms ++ filterIdx (n + 2) (i + ms.length) bs := by
  induction ms with
  | nil => intro i _ _; simp
  | cons m rest ih =>
    intro i h1 h2
    simp only [List.cons_append, filterIdx]
    rw [keepMsg_middle n i m h1 (by simp at h2; omega)]
    simp only [if_true]
    rw [show rest.append bs = rest ++ bs from rfl,
      ih (i + 1) (by omega) (by simp at h2 ⊢; omega)]
    have harith : i + (m :: rest).length = i + 1 + rest.length := by
      simp only [List.length_cons]; omega
    rw [harith]

theorem generateTranscriptMessages_eq_specDropEnds (msgs : List TicketMsg) :
    generateTranscriptMessages msgs = specDropEnds msgs := by
  match msgs with
  | [] => rfl
  | [a] =>
    simp only [generateTranscriptMessages, specDropEnds, List.length_cons,
      List.length_nil, filterIdx, keepMsg]
    cases h : msgIncludesEmbed a <;> simp [h, filterIdx]
  | a :: c :: rest =>
    have htl : c :: rest ≠ [] := List.cons_ne_nil _ _
    have hdec : (c :: rest).dropLast ++ [(c :: rest).getLast htl] = c :: rest :=
      List.dropLast_append_getLast htl
    set mid := (c :: rest).dropLast with hmid
    set b := (c :: rest).getLast htl with hb
    have hlen : (c :: rest).length = mid.length + 1 := by
      rw [← hdec]; simp
    have hlast? : (c :: rest).getLast? = some b := List.getLast?_eq_getLast _ htl
    set n := mid.length with hn
    have hmsgs : (a :: c :: rest).length = n + 2 := by simp [hlen]
    unfold generateTranscriptMessages
    rw [hmsgs]
    conv_lhs => rw [show a :: c :: rest = a :: (mid ++ [b]) by rw [hdec]]
    simp only [filterIdx]
    have hka : keepMsg (n + 2) 0 a = !msgIncludesEmbed a := by
      have : (0 == n + 2 - 1) = false := by simp
      simp [keepMsg, this]
    have hsplice : filterIdx (n + 2) 1 (mid ++ [b]) =
        mid ++ filterIdx (n + 2) (1 + mid.length) [b] :=
      filterIdx_splice n mid [b] 1 (by omega) (by omega)
    have hkb : keepMsg (n + 2) (n + 1) b = !msgIncludesEmbed b := by
      have h0 : (n + 1 == 0) = false := by simp
      have h1 : (n + 1 == n + 2 - 1) = true := by simp
      simp [keepMsg, h0, h1]
    have hlastfi : filterIdx (n + 2) (1 + mid.length) [b] =
        if msgIncludesEmbed b then [] else [b] := by
      have : 1 + mid.length = n + 1 := by omega
      rw [this]
      simp only [filterIdx, hkb]
      cases msgIncludesEmbed b <;> simp
    rw [hka, hsplice, hlastfi]
    simp only [specDropEnds, hlast?]
    cases msgIncludesEmbed a <;> cases msgIncludesEmbed b <;> simp

theorem findLazyClose_rest_length {delim : List Char} {allowNl : Bool} :
    ∀ {l content rest}, findLazyClose delim allowNl l = some (content, rest) →
      rest.length ≤ l.length := by
  intro l
  induction l with
  | nil => intro content rest h; simp [findLazyClose] at h
  | cons c cs ih =>
    intro content rest h
    simp only [findLazyClose] at h
    split at h
    · have : rest = (c :: cs).drop delim.length := by
        cases h; rfl
      subst this
      simp
    · split at h
      · exact absurd h (by simp)
      · cases hrec : findLazyClose delim allowNl cs with
        | none => rw [hrec] at h; exact absurd h (by simp)
        | some pr =>
          rw [hrec] at h
          cases pr with
          | mk ct rs =>
            cases h
            exact Nat.le_trans (ih hrec) (Nat.le_succ _)

theorem replacePairFuel_eq_of_le (d0 : Char) (drest openT closeT : List Char)
    (allowNl : Bool) :
    ∀ (fuel : Nat) (l : List Char) (fuel' : Nat), l.length ≤ fuel → l.length ≤ fuel' →
      replacePairFuel d0 drest openT closeT allowNl fuel l =
        replacePairFuel d0 drest openT closeT allowNl fuel' l := by
  intro fuel
  induction fuel with
  | zero =>
    intro l fuel' h _
    have : l = [] := List.length_eq_zero.mp (Nat.le_zero.mp h)
    subst this
    cases fuel' <;> rfl
  | succ f ih =>
    intro l fuel' h h'
    cases l with
    | nil => cases fuel' <;> rfl
    | cons c cs =>
      cases fuel' with
      | zero => simp at h'
      | succ f' =>
        simp only [replacePairFuel]
        split
        · cases hfc : findLazyClose (d0 :: drest) allowNl
            ((c :: cs).drop (d0 :: drest).length) with
          | none =>
            simp only []
            rw [ih cs f' (by simp at h; omega) (by simp at h'; omega)]
          | some pr =>
            cases pr with
            | mk content rest =>
              simp only []
              have hrest : rest.length ≤ cs.length := by
                have := findLazyClose_rest_length hfc
                simp only [List.length_drop, List.length_cons] at this
                omega
              rw [ih rest f' (by simp at h; omega) (by simp at h'; omega)]
        · rw [ih cs f' (by simp at h; omega) (by simp at h'; omega)]


theorem matchMention_rest_length {o0 : Char} {orest l rest : List Char}
    (h : matchMention o0 orest l = some rest) : rest.length < l.length := by
  simp only [matchMention] at h
  split at h
  · rename_i hpre
    split at h
    · exact absurd h (by simp)
    · rename_i hdig
      split at h
      · cases h
        have h1 : l.length ≥ (o0 :: orest).length := ( List.isPrefixOf_iff_prefix.mp hpre).length_le
        have h2 : ¬(l.drop (o0 :: orest).length).takeWhile (·.isDigit) = [] := by
          simpa [List.isEmpty_iff] using hdig
        have h3 : 0 < ((l.drop (o0 :: orest).length).takeWhile (·.isDigit)).length :=
          List.length_pos.mpr h2
        have h4 : ((l.drop (o0 :: orest).length).takeWhile (·.isDigit)).length ≤
            (l.drop (o0 :: orest).length).length := ( List.takeWhile_prefix _).length_le
        simp only [List.length_drop, List.length_cons] at *
        omega
      · exact absurd h (by simp)
  · exact absurd h (by simp)

theorem replaceMentionFuel_eq_of_le (o0 : Char) (orest repl : List Char) :
    ∀ (fuel : Nat) (l : List Char) (fuel' : Nat), l.length ≤ fuel → l.length ≤ fuel' →
      replaceMentionFuel o0 orest repl fuel l = replaceMentionFuel o0 orest repl fuel' l := by
  intro fuel
  induction fuel with
  | zero =>
    intro l fuel' h _
    have : l = [] := List.length_eq_zero.mp (Nat.le_zero.mp h)
    subst this
    cases fuel' <;> rfl
  | succ f ih =>
    intro l fuel' h h'
    cases l with
    | nil => cases fuel' <;> rfl
    | cons c cs =>
      cases fuel' with
      | zero => simp at h'
      | succ f' =>
        simp only [replaceMentionFuel]
        cases hm : matchMention o0 orest (c :: cs) with
        | none =>
          simp only []
          rw [ih cs f' (by simp at h; omega) (by simp at h'; omega)]
        | some rest =>
          simp only []
          have hrest : rest.length < (c :: cs).length := matchMention_rest_length hm
          simp only [List.length_cons] at hrest
          rw [ih rest f' (by simp at h; omega) (by simp at h'; omega)]


theorem escapeHtmlL_id {l : List Char} (h : ∀ c ∈ l, c ∉ mdTriggerChars) :
    escapeHtmlL l = l := by
  induction l with
  | nil => rfl
  | cons c cs ih =>
    have hc := h c (List.mem_cons_self _ _)
    simp only [mdTriggerChars, List.mem_cons, List.not_mem_nil, or_false] at hc
    push_neg at hc
    obtain ⟨h1, h2, h3, h4, h5, -⟩ := hc
    simp only [escapeHtmlL, List.flatMap_cons, escapeChar, if_neg h1, if_neg h2,
      if_neg h3, if_neg h4, if_neg h5]
    rw [show cs.flatMap escapeChar = escapeHtmlL cs from rfl,
      ih fun c hmem => h c (List.mem_cons_of_mem _ hmem)]
    rfl

theorem replacePairFuel_id (d0 : Char) (drest openT closeT : List Char) (allowNl : Bool) :
    ∀ (fuel : Nat) (l : List Char), d0 ∉ l →
      replacePairFuel d0 drest openT closeT allowNl fuel l = l := by
  intro fuel
  induction fuel with
  | zero => intro l _; rfl
  | succ f ih =>
    intro l h
    cases l with
    | nil => rfl
    | cons c cs =>
      have hne : d0 ≠ c := fun he => h (he ▸ List.mem_cons_self _ _)
      have hpre : (d0 :: drest).isPrefixOf (c :: cs) = false := by
        simp [List.isPrefixOf, hne]
      simp only [replacePairFuel, hpre, Bool.false_eq_true, if_false]
      rw [ih cs fun hm => h (List.mem_cons_of_mem _ hm)]

theorem replacePair_id {d0 : Char} {drest openT closeT : List Char} {allowNl : Bool}
    {l : List Char} (h : d0 ∉ l) :
    replacePair d0 drest openT closeT allowNl l = l :=
  replacePairFuel_id d0 drest openT closeT allowNl l.length l h

theorem replaceMentionFuel_id (o0 : Char) (orest repl : List Char) :
    ∀ (fuel : Nat) (l : List Char), o0 ∉ l →
      replaceMentionFuel o0 orest repl fuel l = l := by
  intro fuel
  induction fuel with
  | zero => intro l _; rfl
  | succ f ih =>
    intro l h
    cases l with
    | nil => rfl
    | cons c cs =>
      have hne : o0 ≠ c := fun he => h (he ▸ List.mem_cons_self _ _)
      have hm : matchMention o0 orest (c :: cs) = none := by
        have hpre : (o0 :: orest).isPrefixOf (c :: cs) = false := by
          simp [List.isPrefixOf, hne]
        simp [matchMention, hpre]
      simp only [replaceMentionFuel, hm]
      rw [ih cs fun hmem => h (List.mem_cons_of_mem _ hmem)]

theorem replaceMentionCore_id {o0 : Char} {orest repl : List Char} {l : List Char}
    (h : o0 ∉ l) : replaceMentionCore o0 orest repl l = l :=
  replaceMentionFuel_id o0 orest repl l.length l h

theorem splitNl_id {l : List Char} (h : '\n' ∉ l) : splitNl l = [l] := by
  induction l with
  | nil => rfl
  | cons c cs ih =>
    have hc : ¬c = '\n' := fun he => h (he ▸ List.mem_cons_self _ _)
    have hcs : splitNl cs = [cs] := ih fun hm => h (List.mem_cons_of_mem _ hm)
    simp [splitNl, hcs, hc]

theorem quoteLine_id {line : List Char} (h : '&' ∉ line) : quoteLine line = line := by
  cases line with
  | nil => rfl
  | cons c cs =>
    have hne : '&' ≠ c := fun he => h (he ▸ List.mem_cons_self _ _)
    have hdata : "&gt; ".data = '&' :: 'g' :: 't' :: ';' :: ' ' :: [] := rfl
    have hpre : "&gt; ".data.isPrefixOf (c :: cs) = false := by
      rw [hdata]
      simp only [List.isPrefixOf, Bool.and_eq_false_iff]
      left
      simpa using hne
    simp [quoteLine, hpre]

theorem replaceQuote_id {l : List Char} (hnl : '\n' ∉ l) (hamp : '&' ∉ l) :
    replaceQuote l = l := by
  simp only [replaceQuote, splitNl_id hnl, List.map_cons, List.map_nil,
    quoteLine_id hamp]
  simp [List.intercalate]

theorem replaceLineBreaks_id {l : List Char} (h : '\n' ∉ l) :
    replaceLineBreaks l = l := by
  induction l with
  | nil => rfl
  | cons c cs ih =>
    have hc : ¬c = '\n' := fun he => h (he ▸ List.mem_cons_self _ _)
    simp only [replaceLineBreaks, List.flatMap_cons, if_neg hc]
    rw [show cs.flatMap _ = replaceLineBreaks cs from rfl,
      ih fun hm => h (List.mem_cons_of_mem _ hm)]
    rfl

theorem formatDiscordMarkdown_id {s : String} (h : ∀ c ∈ s.data, c ∉ mdTriggerChars) :
    formatDiscordMarkdown s = s := by
  have hnot : ∀ x ∈ mdTriggerChars, x ∉ s.data := fun x hx hc => h _ hc hx
  obtain ⟨data⟩ := s
  simp only [formatDiscordMarkdown]
  rw [escapeHtmlL_id h,
    replacePair_id (hnot '*' (by decide)),
    replacePair_id (hnot '*' (by decide)),
    replacePair_id (hnot '_' (by decide)),
    replacePair_id (hnot '~' (by decide)),
    replacePair_id (hnot '`' (by decide)),
    replacePair_id (hnot '`' (by decide)),
    replaceQuote_id (hnot '\n' (by decide)) (hnot '&' (by decide)),
    replaceMentionCore_id (hnot '&' (by decide)),
    replaceMentionCore_id (hnot '&' (by decide)),
    replaceLineBreaks_id (hnot '\n' (by decide))]

/-! ## Closure model lemmas -/

theorem instCloseTicket_result (ctx : CloseCtx) (f : CloseFaults) (st : SysState)
    (tid : Nat) (closerId : String) (reason : Option String) (now : Nat) :
    (instCloseTicket ctx f st tid closerId reason now).2.1 = instCloseSuccess f ∧
    (instCloseTicket ctx f st tid closerId reason now).2.2 = instCloseTrace ctx f ∧
    (instCloseTicket ctx f st tid closerId reason now).1.registry = st.registry ∧
    (instCloseTicket ctx f st tid closerId reason now).1.channels = st.channels := by
  cases hp : f.persistClosedAtFails <;> cases ha : f.appendClosureMsgFails <;>
    simp [instCloseTicket, instCloseTrace, instCloseSuccess, hp, ha]

theorem mapGet_mapErase_self (k : String) (m : List (String × Nat)) :
    mapGet k (mapErase k m) = none := by
  induction m with
  | nil => rfl
  | cons p rest ih =>
    by_cases h : p.1 = k
    · simpa [mapErase, h] using ih
    · have hne : (p.1 == k) = false := by simpa using h
      simp only [mapErase, List.filter_cons, hne, Bool.not_false, if_true]
      have hkp : (k == p.1) = false := by
        simp only [beq_eq_false_iff_ne, ne_eq]
        exact fun he => h he.symm
      simpa [mapGet, List.lookup, hkp, mapErase] using ih

theorem append_cons_eq_unique {α : Type} {a : α} :
    ∀ (l₁ pre l₂ post : List α), pre ++ a :: post = l₁ ++ a :: l₂ →
      a ∉ l₁ → a ∉ l₂ → pre = l₁ ∧ post = l₂ := by
  intro l₁
  induction l₁ with
  | nil =>
    intro pre l₂ post h _ h2
    cases pre with
    | nil =>
      simp only [List.nil_append] at h
      exact ⟨rfl, (List.cons.injEq _ _ _ _ ▸ h).2⟩
    | cons p pre' =>
      simp only [List.cons_append, List.nil_append] at h
      obtain ⟨hpa, htail⟩ := List.cons.injEq _ _ _ _ ▸ h
      exfalso
      apply h2
      rw [← htail]
      exact List.mem_append_right _ (List.mem_cons_self _ _)
  | cons x l₁' ih =>
    intro pre l₂ post h h1 h2
    cases pre with
    | nil =>
      simp only [List.nil_append, List.cons_append] at h
      obtain ⟨hax, -⟩ := List.cons.injEq _ _ _ _ ▸ h
      exact absurd (hax ▸ List.mem_cons_self x l₁') h1
    | cons p pre' =>
      simp only [List.cons_append] at h
      obtain ⟨hpx, htail⟩ := List.cons.injEq _ _ _ _ ▸ h
      have hnot1 : a ∉ l₁' := fun hm => h1 (List.mem_cons_of_mem _ hm)
      obtain ⟨hpre, hpost⟩ := ih pre' l₂ post htail hnot1 h2
      exact ⟨by rw [hpx, hpre], hpost⟩

theorem unregister_notin_instCloseTrace :
    ∀ (p q r s t u v a b c d e g : Bool),
      CloseEvent.unregister ∉ instCloseTrace ⟨p, q, r, s, t, u, v⟩ ⟨a, b, c, d, e, g⟩ := by
  decide

theorem staticCloseTicket_trace (ctx : CloseCtx) (f : CloseFaults) (st : SysState)
    (ch closerId : String) (reason : Option String) (now : Nat) (tid : Nat)
    (hreg : mapGet ch st.registry = some tid) :
    (staticCloseTicket ctx f st ch closerId true reason now).2.2 =
      (if instCloseSuccess f then instCloseTrace ctx f ++ [CloseEvent.unregister]
       else instCloseTrace ctx f) ++
      (if ctx.ticketInfoFound && !ctx.closerIsOwner then [CloseEvent.notifyDmAttempt]
       else []) ∧
    (staticCloseTicket ctx f st ch closerId true reason now).2.1 =
      CloseReqResult.completed (instCloseSuccess f) ∧
    (staticCloseTicket ctx f st ch closerId true reason now).1.registry =
      (if instCloseSuccess f then
        mapErase ch (instCloseTicket ctx f st tid closerId reason now).1.registry
       else (instCloseTicket ctx f st tid closerId reason now).1.registry) := by
  obtain ⟨hs, ht, hr, hc⟩ := instCloseTicket_result ctx f st tid closerId reason now
  simp only [staticCloseTicket, hreg]
  cases hsucc : instCloseSuccess f <;>
    cases hnot : ctx.ticketInfoFound && !ctx.closerIsOwner <;>
      simp [hs, ht, hsucc, hnot]


/-! ## Substring-containment helpers for the rendered summary -/

theorem isInfix_extend_left {l m : List Char} (k : List Char) (h : l <:+: m) :
    l <:+: k ++ m := by
  obtain ⟨s, t, hst⟩ := h
  exact ⟨k ++ s, t, by rw [← hst]; simp⟩

theorem joinSep_name_isInfix (sep : String) :
    ∀ (xs : List String) (x : String), x ∈ xs → x.data <:+: (joinSep sep xs).data := by
  intro xs
  induction xs with
  | nil => intro x hx; cases hx
  | cons a rest ih =>
    intro x hx
    cases rest with
    | nil =>
      have : x = a := by simpa using hx
      subst this
      simp [joinSep]
    | cons b rrest =>
      rcases List.mem_cons.mp hx with rfl | hmem
      · refine ⟨[], (sep ++ joinSep sep (b :: rrest)).data, ?_⟩
        simp [joinSep, String.data_append]
      · obtain ⟨s, t, hst⟩ := ih x hmem
        refine ⟨(a ++ sep).data ++ s, t, ?_⟩
        simp only [joinSep, String.data_append, List.append_assoc, ← hst]

theorem purchaseInfoValue_contains_response (resp : String) (data : TebexPayment) :
    strIncludes (purchaseInfoValue resp data) resp = true := by
  apply strIncludes_intro
  refine ⟨"* Transaction ID: ".data,
    ("\n" ++ "* Status: " ++ data.status ++ "\n" ++ "* Packages: " ++
      joinSep ", " (data.packages.map TebexPackage.name)).data, ?_⟩
  simp [purchaseInfoValue, String.data_append]

theorem purchaseInfoValue_contains_status (resp : String) (data : TebexPayment) :
    strIncludes (purchaseInfoValue resp data) data.status = true := by
  apply strIncludes_intro
  refine ⟨("* Transaction ID: " ++ resp ++ "\n" ++ "* Status: ").data,
    ("\n" ++ "* Packages: " ++ joinSep ", " (data.packages.map TebexPackage.name)).data, ?_⟩
  simp [purchaseInfoValue, String.data_append]

theorem purchaseInfoValue_contains_packages (resp : String) (data : TebexPayment) :
    (data.packages.all fun p => strIncludes (purchaseInfoValue resp data) p.name) = true := by
  rw [List.all_eq_true]
  intro p hp
  apply strIncludes_intro
  have hinf : p.name.data <:+: (joinSep ", " (data.packages.map TebexPackage.name)).data :=
    joinSep_name_isInfix ", " _ p.name (List.mem_map_of_mem TebexPackage.name hp)
  have hext := isInfix_extend_left
    ("* Transaction ID: " ++ resp ++ "\n" ++ "* Status: " ++ data.status ++ "\n" ++
      "* Packages: ").data hinf
  obtain ⟨s, t, hst⟩ := hext
  refine ⟨s, t, ?_⟩
  rw [hst]
  simp [purchaseInfoValue, String.data_append]

/-! ## Claim theorems -/

/-- C1 counterexample: for the scenario token (which matches the
verification-token format) and a successful verification, the rendered
"Purchase Info" field value *does* contain the raw token string, contrary to
the claim that the raw token is absent from the rendered field. -/
theorem C1_counterexample :
    tbxIdRegexTest "tbx-12345678901234-abc" = true ∧
    strIncludes
      (renderTicketField (PurchaseOutcome.success ⟨"Complete", [⟨"VIP Pack"⟩]⟩)
        ⟨"Transaction ID", "tbx-12345678901234-abc", "tbxid"⟩).value
      "tbx-12345678901234-abc" = true := by
  decide

/-- C1 (amended): for every answered form value matching the
verification-token format under a successful verification, the rendered
field's name is replaced by "Purchase Info" and its value is a verification
summary containing the status and every associated package name — but the
summary also retains the raw token as its Transaction ID line. -/
theorem C1_verification_summary (data : TebexPayment) (r : FormResponse)
    (h : tbxIdRegexTest r.response = true) :
    (renderTicketField (PurchaseOutcome.success data) r).name = "Purchase Info" ∧
    strIncludes (renderTicketField (PurchaseOutcome.success data) r).value
      data.status = true ∧
    (data.packages.all fun p =>
      strIncludes (renderTicketField (PurchaseOutcome.success data) r).value p.name) = true ∧
    strIncludes (renderTicketField (PurchaseOutcome.success data) r).value
      r.response = true := by
  have hred : renderTicketField (PurchaseOutcome.success data) r =
      { name := "Purchase Info", value := purchaseInfoValue r.response data,
        inline := false } := by
    simp [renderTicketField, h]
  rw [hred]
  exact ⟨rfl, purchaseInfoValue_contains_status r.response data,
    purchaseInfoValue_contains_packages r.response data,
    purchaseInfoValue_contains_response r.response data⟩

/-- C1 witness: the amended theorem evaluated at the scenario token. -/
theorem C1_verification_summary_witness :
    tbxIdRegexTest "tbx-12345678901234-abc" = true ∧
    ((renderTicketField (PurchaseOutcome.success ⟨"Complete", [⟨"VIP Pack"⟩]⟩)
        ⟨"Describe issue", "tbx-12345678901234-abc", "tbxid"⟩).name = "Purchase Info" ∧
     strIncludes (renderTicketField (PurchaseOutcome.success ⟨"Complete", [⟨"VIP Pack"⟩]⟩)
        ⟨"Describe issue", "tbx-12345678901234-abc", "tbxid"⟩).value "Complete" = true ∧
     (([⟨"VIP Pack"⟩] : List TebexPackage).all fun p =>
       strIncludes (renderTicketField (PurchaseOutcome.success ⟨"Complete", [⟨"VIP Pack"⟩]⟩)
          ⟨"Describe issue", "tbx-12345678901234-abc", "tbxid"⟩).value p.name) = true ∧
     strIncludes (renderTicketField (PurchaseOutcome.success ⟨"Complete", [⟨"VIP Pack"⟩]⟩)
        ⟨"Describe issue", "tbx-12345678901234-abc", "tbxid"⟩).value
       "tbx-12345678901234-abc" = true) :=
  ⟨by decide,
    C1_verification_summary ⟨"Complete", [⟨"VIP Pack"⟩]⟩
      ⟨"Describe issue", "tbx-12345678901234-abc", "tbxid"⟩ (by decide)⟩

/-- C2 counterexample: a leading message whose content mixes plain text with
an embed marker is not a rich-content-only synthetic marker, yet the filter
drops it — refuting "drops ... if and only if it is a rich-content-only
synthetic marker". -/
theorem C2_counterexample :
    generateTranscriptMessages
        [⟨"u1", "Alice", some "hello <EMBED:x>", 1⟩, ⟨"u2", "Bob", some "hi", 2⟩] =
      [⟨"u2", "Bob", some "hi", 2⟩] ∧
    specRichContentOnly ⟨"u1", "Alice", some "hello <EMBED:x>", 1⟩ = false := by
  decide

/-- C2 (amended): transcript rendering drops the leading message iff its
content *contains* the embed-marker substring (not only when the content is
solely the marker), likewise the trailing message, and preserves every other
message in its position of the ascending-timestamp order. -/
theorem C2_transcript_filter (msgs : List TicketMsg) :
    generateTranscriptMessages msgs = specDropEnds msgs :=
  generateTranscriptMessages_eq_specDropEnds msgs

/-- C3 counterexample: the transform is not idempotent — on input "&" one
application yields "&amp;" but a second application re-escapes the ampersand
to "&amp;amp;", changing the visible text from "&" to "&amp;". -/
theorem C3_counterexample :
    formatDiscordMarkdown "&" = "&amp;" ∧
    formatDiscordMarkdown (formatDiscordMarkdown "&") = "&amp;amp;" ∧
    formatDiscordMarkdown (formatDiscordMarkdown "&") ≠ formatDiscordMarkdown "&" := by
  decide

/-- C3 (amended): the transform double-escapes in general, so it is not
idempotent; it is idempotent on trigger-free text: on any string containing
none of the characters that drive escaping or substitution, one application
is the identity, hence a second application changes nothing. (This is a
sufficient condition only — some strings containing trigger characters, such
as one with a single unpaired asterisk, are also left unchanged.) -/
theorem C3_markdown_idempotent_on_plain (s : String)
    (h : (s.data.all fun c => !mdTriggerChars.contains c) = true) :
    formatDiscordMarkdown (formatDiscordMarkdown s) = formatDiscordMarkdown s := by
  have h' : ∀ c ∈ s.data, c ∉ mdTriggerChars := by
    intro c hc
    have := List.all_eq_true.mp h c hc
    simpa using this
  rw [formatDiscordMarkdown_id h', formatDiscordMarkdown_id h']

/-- C3 witness: the amended idempotence at a concrete plain string. -/
theorem C3_markdown_idempotent_witness :
    ("Hello ticket 42".data.all fun c => !mdTriggerChars.contains c) = true ∧
    formatDiscordMarkdown (formatDiscordMarkdown "Hello ticket 42") =
      formatDiscordMarkdown "Hello ticket 42" :=
  ⟨by decide, C3_markdown_idempotent_on_plain "Hello ticket 42" (by decide)⟩


/-! ## Map and recovery lemmas -/

theorem mapGet_mapSet_self (k : String) (v : Nat) (m : List (String × Nat)) :
    mapGet k (mapSet k v m) = some v := by
  simp [mapGet, mapSet, List.lookup]

theorem lookup_filter_ne (k k' : String) (hne : k ≠ k') :
    ∀ m : List (String × Nat),
      List.lookup k (m.filter fun p => !(p.1 == k')) = List.lookup k m := by
  intro m
  induction m with
  | nil => rfl
  | cons q rest ih =>
    by_cases hq : q.1 = k'
    · have h1 : (q.1 == k') = true := by simpa using hq
      have h2 : (k == q.1) = false := by
        simp only [beq_eq_false_iff_ne, ne_eq]
        exact fun he => hne (he.trans hq)
      simp [List.filter_cons, h1, List.lookup, h2, ih]
    · have h1 : (q.1 == k') = false := by simpa using hq
      simp only [List.filter_cons, h1, Bool.not_false, if_true]
      cases hkq : (k == q.1) <;> simp [List.lookup, hkq, ih]

theorem mapGet_mapSet_ne (k k' : String) (v : Nat) (m : List (String × Nat))
    (hne : k ≠ k') : mapGet k (mapSet k' v m) = mapGet k m := by
  have hkk : (k == k') = false := by simpa using hne
  simp only [mapGet, mapSet, List.lookup, hkk, mapErase]
  exact lookup_filter_ne k k' hne m

theorem mapGet_isSome_mapSet (k k' : String) (v : Nat) (m : List (String × Nat))
    (h : (mapGet k m).isSome = true) : (mapGet k (mapSet k' v m)).isSome = true := by
  by_cases hk : k = k'
  · subst hk; simp [mapGet_mapSet_self]
  · rw [mapGet_mapSet_ne k k' v m hk]; exact h

theorem mem_mapSet (p : String × Nat) (k : String) (v : Nat) (m : List (String × Nat))
    (h : p ∈ mapSet k v m) : p = (k, v) ∨ p ∈ m := by
  rcases List.mem_cons.mp h with h' | h'
  · exact Or.inl h'
  · exact Or.inr (List.mem_of_mem_filter h')

theorem reloadLoop_closedIds (botId : String) (resolve : String → Bool) :
    ∀ (ts : List PersistedTicket) (acc : RecoveryResult),
      (reloadLoop botId resolve acc ts).closedIds =
        acc.closedIds ++ (ts.filter fun t => !resolve t.channelId).map PersistedTicket.id := by
  intro ts
  induction ts with
  | nil => intro acc; simp [reloadLoop]
  | cons t rest ih =>
    intro acc
    cases h : resolve t.channelId <;>
      simp [reloadLoop, h, ih, List.append_assoc]

theorem reloadLoop_syntheticMessages (botId : String) (resolve : String → Bool) :
    ∀ (ts : List PersistedTicket) (acc : RecoveryResult),
      (reloadLoop botId resolve acc ts).syntheticMessages =
        acc.syntheticMessages ++ (ts.filter fun t => !resolve t.channelId).map
          (fun t => ⟨t.id, botId, recoveryClosureContent⟩) := by
  intro ts
  induction ts with
  | nil => intro acc; simp [reloadLoop]
  | cons t rest ih =>
    intro acc
    cases h : resolve t.channelId <;>
      simp [reloadLoop, h, ih, List.append_assoc]

theorem reloadLoop_registry_isSome (botId : String) (resolve : String → Bool) :
    ∀ (ts : List PersistedTicket) (acc : RecoveryResult) (k : String),
      (mapGet k acc.registry).isSome = true →
      (mapGet k (reloadLoop botId resolve acc ts).registry).isSome = true := by
  intro ts
  induction ts with
  | nil => intro acc k h; exact h
  | cons t rest ih =>
    intro acc k h
    cases hr : resolve t.channelId
    · simp only [reloadLoop, hr, Bool.false_eq_true, if_false]
      exact ih _ k h
    · simp only [reloadLoop, hr, if_true]
      exact ih _ k (mapGet_isSome_mapSet k t.channelId t.id acc.registry h)

theorem reloadLoop_registered (botId : String) (resolve : String → Bool) :
    ∀ (ts : List PersistedTicket) (acc : RecoveryResult) (t : PersistedTicket),
      t ∈ ts → resolve t.channelId = true →
      (mapGet t.channelId (reloadLoop botId resolve acc ts).registry).isSome = true := by
  intro ts
  induction ts with
  | nil => intro acc t h; cases h
  | cons t0 rest ih =>
    intro acc t ht hres
    rcases List.mem_cons.mp ht with rfl | hmem
    · simp only [reloadLoop, hres, if_true]
      apply reloadLoop_registry_isSome
      simp [mapGet_mapSet_self]
    · cases hr : resolve t0.channelId <;>
        simp only [reloadLoop, hr, if_true, Bool.false_eq_true, if_false] <;>
        exact ih _ t hmem hres

theorem reloadLoop_registry_mem (botId : String) (resolve : String → Bool) :
    ∀ (ts : List PersistedTicket) (acc : RecoveryResult) (p : String × Nat),
      p ∈ (reloadLoop botId resolve acc ts).registry →
      p ∈ acc.registry ∨ ∃ t, t ∈ ts ∧ resolve t.channelId = true ∧
        p = (t.channelId, t.id) := by
  intro ts
  induction ts with
  | nil => intro acc p h; exact Or.inl h
  | cons t0 rest ih =>
    intro acc p h
    cases hr : resolve t0.channelId
    · simp only [reloadLoop, hr, Bool.false_eq_true, if_false] at h
      rcases ih _ p h with h' | ⟨t, ht, hres, hp⟩
      · exact Or.inl h'
      · exact Or.inr ⟨t, List.mem_cons_of_mem _ ht, hres, hp⟩
    · simp only [reloadLoop, hr, if_true] at h
      rcases ih _ p h with h' | ⟨t, ht, hres, hp⟩
      · rcases mem_mapSet p t0.channelId t0.id acc.registry h' with hp0 | hacc
        · exact Or.inr ⟨t0, List.mem_cons_self _ _, hr, hp0⟩
        · exact Or.inl hacc
      · exact Or.inr ⟨t, List.mem_cons_of_mem _ ht, hres, hp⟩

/-- C9: for every startup recovery pass, exactly the tickets whose channels
fail to resolve are closed, each with one synthetic bot-attributed closure
message; every ticket whose channel resolves is registered in the registry and
contributes no closure; the registry holds only resolved tickets; and the
pass processes the whole list (no abort on failure). -/
theorem C9_recovery_partition (botId : String) (resolve : String → Bool)
    (ts : List PersistedTicket) :
    (reloadTickets botId resolve ts).closedIds =
      (ts.filter fun t => !resolve t.channelId).map PersistedTicket.id ∧
    (reloadTickets botId resolve ts).syntheticMessages =
      (ts.filter fun t => !resolve t.channelId).map
        (fun t => ⟨t.id, botId, recoveryClosureContent⟩) ∧
    (∀ t ∈ ts, resolve t.channelId = true →
      (mapGet t.channelId (reloadTickets botId resolve ts).registry).isSome = true) ∧
    (∀ p ∈ (reloadTickets botId resolve ts).registry,
      ∃ t, t ∈ ts ∧ resolve t.channelId = true ∧ p = (t.channelId, t.id)) ∧
    (reloadTickets botId resolve ts).closedIds.length =
      ((ts.filter fun t => !resolve t.channelId).map PersistedTicket.id).length := by
  refine ⟨?_, ?_, ?_, ?_, ?_⟩
  · simpa using reloadLoop_closedIds botId resolve ts ⟨[], [], []⟩
  · simpa using reloadLoop_syntheticMessages botId resolve ts ⟨[], [], []⟩
  · intro t ht hres
    exact reloadLoop_registered botId resolve ts ⟨[], [], []⟩ t ht hres
  · intro p hp
    rcases reloadLoop_registry_mem botId resolve ts ⟨[], [], []⟩ p hp with h | h
    · cases h
    · exact h
  · rw [show (reloadTickets botId resolve ts).closedIds =
        (ts.filter fun t => !resolve t.channelId).map PersistedTicket.id by
      simpa using reloadLoop_closedIds botId resolve ts ⟨[], [], []⟩]

/-- C7: in the form path (verification required or at least one field), a
modal wait that times out terminates the intake with a cancellation and no
side effects: no new channel, no new ticket row, no registry entry. -/
theorem C7_intake_timeout (ctx : IntakeCtx) (st : SysState) (purchase : PurchaseOutcome)
    (newChannelId : String) (newTicketId : Nat) (userId : String)
    (hfound : ctx.categoryFound = true)
    (hform : ctx.requireTbxId = true ∨ ctx.fieldCount ≠ 0) :
    createNewTicket ctx st ModalWait.timeout purchase newChannelId newTicketId userId =
      (st, IntakeOutcome.cancelled) ∧
    (createNewTicket ctx st ModalWait.timeout purchase newChannelId newTicketId
        userId).1.channels = st.channels ∧
    (createNewTicket ctx st ModalWait.timeout purchase newChannelId newTicketId
        userId).1.tickets = st.tickets ∧
    (createNewTicket ctx st ModalWait.timeout purchase newChannelId newTicketId
        userId).1.registry = st.registry := by
  have hcond : (!ctx.requireTbxId && ctx.fieldCount == 0) = false := by
    rcases hform with h | h
    · simp [h]
    · have : (ctx.fieldCount == 0) = false := by simpa using h
      simp [this]
  have hmain : createNewTicket ctx st ModalWait.timeout purchase newChannelId newTicketId
      userId = (st, IntakeOutcome.cancelled) := by
    simp [createNewTicket, hfound, hcond]
  exact ⟨hmain, by rw [hmain], by rw [hmain], by rw [hmain]⟩

/-- C7 witness: a category requiring verification, concrete empty state. -/
theorem C7_intake_timeout_witness :
    (⟨true, true, 1, true⟩ : IntakeCtx).categoryFound = true ∧
    ((⟨true, true, 1, true⟩ : IntakeCtx).requireTbxId = true ∨
      (⟨true, true, 1, true⟩ : IntakeCtx).fieldCount ≠ 0) ∧
    createNewTicket ⟨true, true, 1, true⟩ ⟨[], [], [], []⟩ ModalWait.timeout
        PurchaseOutcome.failure "chan-new" 12 "user" =
      (⟨[], [], [], []⟩, IntakeOutcome.cancelled) :=
  ⟨by decide, Or.inl (by decide),
    (C7_intake_timeout ⟨true, true, 1, true⟩ ⟨[], [], [], []⟩ PurchaseOutcome.failure
      "chan-new" 12 "user" (by decide) (Or.inl (by decide))).1⟩


/-- C4 counterexample: in a fully-favorable confirmed closure, the archive
post is traced before the registry unregistration — the ticket is *not*
unregistered before the transcript/archival fan-out executes. -/
theorem C4_counterexample :
    CloseEvent.unregister ∈
      (staticCloseTicket ctxEx noCloseFaults stEx "chan" "staff" true (some "done") 9).2.2 ∧
    CloseEvent.archivePostAttempt ∈
      (staticCloseTicket ctxEx noCloseFaults stEx "chan" "staff" true (some "done") 9).2.2 ∧
    ¬ (List.indexOf CloseEvent.unregister
        (staticCloseTicket ctxEx noCloseFaults stEx "chan" "staff" true (some "done") 9).2.2 <
       List.indexOf CloseEvent.archivePostAttempt
        (staticCloseTicket ctxEx noCloseFaults stEx "chan" "staff" true (some "done") 9).2.2) := by
  decide

/-- C4 (amended): unregistration happens within the same closing operation but
*after* the fan-out: the unregister event appears in the close trace iff the
durable transition succeeded, and the only step that may follow it is the
closure-notification DM — every transcript/archival fan-out step precedes it. -/
theorem C4_unregister_after_fanout (ctx : CloseCtx) (f : CloseFaults) (st : SysState)
    (ch closerId : String) (reason : Option String) (now : Nat) (tid : Nat)
    (hreg : mapGet ch st.registry = some tid) :
    (CloseEvent.unregister ∈
        (staticCloseTicket ctx f st ch closerId true reason now).2.2 ↔
      instCloseSuccess f = true) ∧
    (∀ pre post,
      (staticCloseTicket ctx f st ch closerId true reason now).2.2 =
        pre ++ CloseEvent.unregister :: post →
      ∀ e ∈ post, e = CloseEvent.notifyDmAttempt) := by
  obtain ⟨htrace, -, -⟩ := staticCloseTicket_trace ctx f st ch closerId reason now tid hreg
  have hnu : CloseEvent.unregister ∉ instCloseTrace ctx f := by
    obtain ⟨p, q, r, s, t, u, v⟩ := ctx
    obtain ⟨a, b, c, d, e, g⟩ := f
    exact unregister_notin_instCloseTrace p q r s t u v a b c d e g
  set N := (if ctx.ticketInfoFound && !ctx.closerIsOwner
    then [CloseEvent.notifyDmAttempt] else []) with hN
  have hNsub : ∀ e ∈ N, e = CloseEvent.notifyDmAttempt := by
    intro e he
    rw [hN] at he
    split at he
    · simpa using he
    · cases he
  have hNu : CloseEvent.unregister ∉ N := by
    intro hm
    exact CloseEvent.noConfusion (hNsub _ hm)
  cases hsucc : instCloseSuccess f with
  | false =>
    rw [hsucc] at htrace
    simp only [Bool.false_eq_true, if_false] at htrace
    constructor
    · rw [htrace]
      constructor
      · intro hm
        rcases List.mem_append.mp hm with hm' | hm'
        · exact absurd hm' hnu
        · exact absurd hm' hNu
      · intro hcontra
        exact absurd hcontra (by simp)
    · intro pre post heq e' he'
      rw [htrace] at heq
      have hmem : CloseEvent.unregister ∈ instCloseTrace ctx f ++ N := by
        rw [heq]
        exact List.mem_append_right _ (List.mem_cons_self _ _)
      rcases List.mem_append.mp hmem with hm' | hm'
      · exact absurd hm' hnu
      · exact absurd hm' hNu
  | true =>
    rw [hsucc] at htrace
    simp only [if_true] at htrace
    have htrace' : (staticCloseTicket ctx f st ch closerId true reason now).2.2 =
        instCloseTrace ctx f ++ CloseEvent.unregister :: N := by
      rw [htrace]
      simp
    constructor
    · rw [htrace']
      simp
    · intro pre post heq e' he'
      rw [htrace'] at heq
      obtain ⟨-, hpost⟩ :=
        append_cons_eq_unique (instCloseTrace ctx f) pre N post heq.symm hnu hNu
      exact hNsub e' (hpost ▸ he')

/-- C4 witness: the amended ordering at a concrete confirmed closure. -/
theorem C4_unregister_after_fanout_witness :
    mapGet "chan" stEx.registry = some 7 ∧
    ((CloseEvent.unregister ∈
        (staticCloseTicket ctxEx noCloseFaults stEx "chan" "staff" true (some "done") 9).2.2 ↔
      instCloseSuccess noCloseFaults = true) ∧
     (∀ pre post,
      (staticCloseTicket ctxEx noCloseFaults stEx "chan" "staff" true (some "done") 9).2.2 =
        pre ++ CloseEvent.unregister :: post →
      ∀ e ∈ post, e = CloseEvent.notifyDmAttempt)) :=
  ⟨by decide,
    C4_unregister_after_fanout ctxEx noCloseFaults stEx "chan" "staff" (some "done") 9 7
      (by decide)⟩

/-- C5 counterexample: with only transcript generation failing, the close
still reports success but the archive post, the staff post and the requester
DM are all skipped, while every one of them is attempted when generation
succeeds — the fan-out destinations are not mutually independent. -/
theorem C5_counterexample :
    (instCloseTicket ctxEx fGenFailEx stEx 7 "staff" (some "done") 9).2.1 = true ∧
    CloseEvent.archivePostAttempt ∉
      (instCloseTicket ctxEx fGenFailEx stEx 7 "staff" (some "done") 9).2.2 ∧
    CloseEvent.staffPostAttempt ∉
      (instCloseTicket ctxEx fGenFailEx stEx 7 "staff" (some "done") 9).2.2 ∧
    CloseEvent.dmTranscriptAttempt ∉
      (instCloseTicket ctxEx fGenFailEx stEx 7 "staff" (some "done") 9).2.2 ∧
    CloseEvent.archivePostAttempt ∈
      (instCloseTicket ctxEx noCloseFaults stEx 7 "staff" (some "done") 9).2.2 ∧
    CloseEvent.staffPostAttempt ∈
      (instCloseTicket ctxEx noCloseFaults stEx 7 "staff" (some "done") 9).2.2 ∧
    CloseEvent.dmTranscriptAttempt ∈
      (instCloseTicket ctxEx noCloseFaults stEx 7 "staff" (some "done") 9).2.2 := by
  decide

/-- C5 (amended): when the durable steps succeed, the close always reports
success — no fan-out failure flips the result — and the attempts obey exactly
these dependencies: the requester DM requires only the ticket row and a
generated transcript; the archive post additionally requires the configured,
resolvable archive channel; the staff post further requires the archive send
to have succeeded and a populated staff thread. In particular DM and staff
failures suppress nothing else, but a transcript-generation failure suppresses
all three destinations and an archive-send failure suppresses the staff post. -/
theorem C5_fanout_dependencies (ctx : CloseCtx) (f : CloseFaults) (st : SysState)
    (tid : Nat) (closerId : String) (reason : Option String) (now : Nat)
    (hpersist : f.persistClosedAtFails = false)
    (happend : f.appendClosureMsgFails = false) :
    (instCloseTicket ctx f st tid closerId reason now).2.1 = true ∧
    (CloseEvent.dmTranscriptAttempt ∈
        (instCloseTicket ctx f st tid closerId reason now).2.2 ↔
      (ctx.ticketInfoFound && !f.transcriptGenFails) = true) ∧
    (CloseEvent.archivePostAttempt ∈
        (instCloseTicket ctx f st tid closerId reason now).2.2 ↔
      (ctx.hasTranscriptChannelId && ctx.ticketInfoFound && !f.transcriptGenFails &&
        ctx.transcriptChannelResolves) = true) ∧
    (CloseEvent.staffPostAttempt ∈
        (instCloseTicket ctx f st tid closerId reason now).2.2 ↔
      (ctx.hasTranscriptChannelId && ctx.ticketInfoFound && !f.transcriptGenFails &&
        ctx.transcriptChannelResolves && !f.archiveSendFails && ctx.hasStaffThread &&
        ctx.staffThreadResolves && ctx.staffMsgCountGtOne) = true) := by
  obtain ⟨hs, ht, -, -⟩ := instCloseTicket_result ctx f st tid closerId reason now
  rw [hs, ht]
  clear hs ht
  obtain ⟨p, q, r, s, t, u, v⟩ := ctx
  obtain ⟨a, b, c, d, e, g⟩ := f
  have ha : a = false := hpersist
  have hb : b = false := happend
  clear hpersist happend
  subst ha hb
  revert p q r s t u v c d e g
  decide

/-- C5 witness: the dependency characterization at the favorable context with
no faults. -/
theorem C5_fanout_dependencies_witness :
    noCloseFaults.persistClosedAtFails = false ∧
    ((instCloseTicket ctxEx noCloseFaults stEx 7 "staff" (some "done") 9).2.1 = true ∧
     (CloseEvent.dmTranscriptAttempt ∈
        (instCloseTicket ctxEx noCloseFaults stEx 7 "staff" (some "done") 9).2.2 ↔
      (ctxEx.ticketInfoFound && !noCloseFaults.transcriptGenFails) = true) ∧
     (CloseEvent.archivePostAttempt ∈
        (instCloseTicket ctxEx noCloseFaults stEx 7 "staff" (some "done") 9).2.2 ↔
      (ctxEx.hasTranscriptChannelId && ctxEx.ticketInfoFound &&
        !noCloseFaults.transcriptGenFails && ctxEx.transcriptChannelResolves) = true) ∧
     (CloseEvent.staffPostAttempt ∈
        (instCloseTicket ctxEx noCloseFaults stEx 7 "staff" (some "done") 9).2.2 ↔
      (ctxEx.hasTranscriptChannelId && ctxEx.ticketInfoFound &&
        !noCloseFaults.transcriptGenFails && ctxEx.transcriptChannelResolves &&
        !noCloseFaults.archiveSendFails && ctxEx.hasStaffThread &&
        ctxEx.staffThreadResolves && ctxEx.staffMsgCountGtOne) = true)) :=
  ⟨by decide,
    C5_fanout_dependencies ctxEx noCloseFaults stEx 7 "staff" (some "done") 9
      (by decide) (by decide)⟩

/-- C6 counterexample: when the closer *is* the requester, the transcript DM
to the requester is still attempted — it is not skipped. -/
theorem C6_counterexample :
    ctxOwnerEx.closerIsOwner = true ∧
    CloseEvent.dmTranscriptAttempt ∈
      (staticCloseTicket ctxOwnerEx noCloseFaults stEx "chan" "owner" true none 9).2.2 := by
  decide

/-- C6 (amended): the transcript-and-summary DM to the requester is attempted
whenever the ticket row was found and transcript generation succeeded,
regardless of who closes; the DM that is skipped exactly when the closer is
the requester is the separate closure-notification DM (which carries no
transcript). -/
theorem C6_dm_targets (ctx : CloseCtx) (f : CloseFaults) (st : SysState)
    (ch closerId : String) (reason : Option String) (now : Nat) (tid : Nat)
    (hreg : mapGet ch st.registry = some tid)
    (hpersist : f.persistClosedAtFails = false)
    (happend : f.appendClosureMsgFails = false) :
    (CloseEvent.dmTranscriptAttempt ∈
        (staticCloseTicket ctx f st ch closerId true reason now).2.2 ↔
      (ctx.ticketInfoFound && !f.transcriptGenFails) = true) ∧
    (CloseEvent.notifyDmAttempt ∈
        (staticCloseTicket ctx f st ch closerId true reason now).2.2 ↔
      (ctx.ticketInfoFound && !ctx.closerIsOwner) = true) := by
  obtain ⟨htrace, -, -⟩ := staticCloseTicket_trace ctx f st ch closerId reason now tid hreg
  rw [htrace]
  clear htrace hreg
  obtain ⟨p, q, r, s, t, u, v⟩ := ctx
  obtain ⟨a, b, c, d, e, g⟩ := f
  have ha : a = false := hpersist
  have hb : b = false := happend
  clear hpersist happend
  subst ha hb
  revert p q r s t u v c d e g
  decide

/-- C6 witness: the DM characterization at a self-close. -/
theorem C6_dm_targets_witness :
    mapGet "chan" stEx.registry = some 7 ∧
    ((CloseEvent.dmTranscriptAttempt ∈
        (staticCloseTicket ctxOwnerEx noCloseFaults stEx "chan" "owner" true none 9).2.2 ↔
      (ctxOwnerEx.ticketInfoFound && !noCloseFaults.transcriptGenFails) = true) ∧
     (CloseEvent.notifyDmAttempt ∈
        (staticCloseTicket ctxOwnerEx noCloseFaults stEx "chan" "owner" true none 9).2.2 ↔
      (ctxOwnerEx.ticketInfoFound && !ctxOwnerEx.closerIsOwner) = true)) :=
  ⟨by decide,
    C6_dm_targets ctxOwnerEx noCloseFaults stEx "chan" "owner" none 9 7
      (by decide) (by decide) (by decide)⟩

/-- C8: closing an open registered ticket (no persistence faults) reports
success exactly once: any second close request on the same channel is
rejected with the channel-is-not-a-ticket result, leaves the state untouched
and performs no events — no second persisted closure, no re-archival. -/
theorem C8_close_exactly_once (ctx ctx' : CloseCtx) (f' : CloseFaults) (st : SysState)
    (ch closerId closerId' : String) (modalSubmitted' : Bool)
    (reason reason' : Option String) (now now' : Nat) (tid : Nat)
    (hreg : mapGet ch st.registry = some tid) :
    (staticCloseTicket ctx noCloseFaults st ch closerId true reason now).2.1 =
      CloseReqResult.completed true ∧
    staticCloseTicket ctx' f'
        (staticCloseTicket ctx noCloseFaults st ch closerId true reason now).1
        ch closerId' modalSubmitted' reason' now' =
      ((staticCloseTicket ctx noCloseFaults st ch closerId true reason now).1,
        CloseReqResult.channelNotTicket, []) := by
  obtain ⟨-, hres, hregy⟩ :=
    staticCloseTicket_trace ctx noCloseFaults st ch closerId reason now tid hreg
  obtain ⟨-, -, hinstreg, -⟩ :=
    instCloseTicket_result ctx noCloseFaults st tid closerId reason now
  constructor
  · rw [hres]
    rfl
  · have hnone : mapGet ch
        (staticCloseTicket ctx noCloseFaults st ch closerId true reason now).1.registry =
        none := by
      rw [hregy, show instCloseSuccess noCloseFaults = true from rfl, if_pos rfl,
        hinstreg]
      exact mapGet_mapErase_self ch st.registry
    generalize hst1 : (staticCloseTicket ctx noCloseFaults st ch closerId true
      reason now).1 = st1 at hnone ⊢
    simp [staticCloseTicket, hnone]

/-- C8 witness: the exactly-once behaviour at a concrete registered ticket. -/
theorem C8_close_exactly_once_witness :
    mapGet "chan" stEx.registry = some 7 ∧
    ((staticCloseTicket ctxEx noCloseFaults stEx "chan" "staff" true (some "done") 9).2.1 =
      CloseReqResult.completed true ∧
     staticCloseTicket ctxEx noCloseFaults
        (staticCloseTicket ctxEx noCloseFaults stEx "chan" "staff" true (some "done") 9).1
        "chan" "staff" true (some "again") 10 =
      ((staticCloseTicket ctxEx noCloseFaults stEx "chan" "staff" true (some "done") 9).1,
        CloseReqResult.channelNotTicket, [])) :=
  ⟨by decide,
    C8_close_exactly_once ctxEx ctxEx noCloseFaults stEx "chan" "staff" "staff" true
      (some "done") (some "again") 9 10 7 (by decide)⟩

/-- C10: if a durable closure write throws (persisting the closed timestamp or
appending the synthetic closure message), the close reports failure, the
registry entry for the channel is left in place (the ticket is still
dispatch-reachable), and a subsequent close attempt on the same channel is
accepted and succeeds rather than being rejected. -/
theorem C10_failed_close_keeps_ticket (ctx ctx' : CloseCtx) (f : CloseFaults)
    (st : SysState) (ch closerId closerId' : String) (reason reason' : Option String)
    (now now' : Nat) (tid : Nat) (hreg : mapGet ch st.registry = some tid)
    (hf : f.persistClosedAtFails = true ∨ f.appendClosureMsgFails = true) :
    (staticCloseTicket ctx f st ch closerId true reason now).2.1 =
      CloseReqResult.completed false ∧
    (staticCloseTicket ctx f st ch closerId true reason now).1.registry = st.registry ∧
    mapGet ch (staticCloseTicket ctx f st ch closerId true reason now).1.registry =
      some tid ∧
    (staticCloseTicket ctx' noCloseFaults
        (staticCloseTicket ctx f st ch closerId true reason now).1 ch closerId' true
        reason' now').2.1 = CloseReqResult.completed true := by
  have hsucc : instCloseSuccess f = false := by
    rcases hf with h | h <;> simp [instCloseSuccess, h]
  obtain ⟨-, hres, hregy⟩ := staticCloseTicket_trace ctx f st ch closerId reason now tid hreg
  obtain ⟨-, -, hinstreg, -⟩ := instCloseTicket_result ctx f st tid closerId reason now
  have hr1 : (staticCloseTicket ctx f st ch closerId true reason now).1.registry =
      st.registry := by
    rw [hregy, hsucc]
    simp only [Bool.false_eq_true, if_false]
    exact hinstreg
  have hreg2 : mapGet ch
      (staticCloseTicket ctx f st ch closerId true reason now).1.registry = some tid := by
    rw [hr1]
    exact hreg
  refine ⟨?_, hr1, hreg2, ?_⟩
  · rw [hres, hsucc]
  · obtain ⟨-, hres2, -⟩ :=
      staticCloseTicket_trace ctx' noCloseFaults _ ch closerId' reason' now' tid hreg2
    rw [hres2]
    rfl

/-- C10 witness: the accepted-retry behaviour at a concrete persistence
fault. -/
theorem C10_failed_close_keeps_ticket_witness :
    mapGet "chan" stEx.registry = some 7 ∧
    fPersistFailEx.persistClosedAtFails = true ∧
    ((staticCloseTicket ctxEx fPersistFailEx stEx "chan" "staff" true none 9).2.1 =
      CloseReqResult.completed false ∧
     (staticCloseTicket ctxEx fPersistFailEx stEx "chan" "staff" true none 9).1.registry =
      stEx.registry ∧
     mapGet "chan"
       (staticCloseTicket ctxEx fPersistFailEx stEx "chan" "staff" true none 9).1.registry =
      some 7 ∧
     (staticCloseTicket ctxEx noCloseFaults
        (staticCloseTicket ctxEx fPersistFailEx stEx "chan" "staff" true none 9).1
        "chan" "staff" true none 10).2.1 = CloseReqResult.completed true) :=
  ⟨by decide, by decide,
    C10_failed_close_keeps_ticket ctxEx ctxEx fPersistFailEx stEx "chan" "staff" "staff"
      none none 9 10 7 (by decide) (Or.inl (by decide))⟩

end TicketBot
